import Mathlib

/-!
# Contact form of `src/components/ContactSection.js`

A shallow embedding of the logic of the `ContactUsForm` component:
`validateForm`, `handleChange`, `handleSubmit` and the two continuations
passed to `emailjs.send(...).then`.

* A JavaScript string is a sequence of UTF-16 code units, so `JSString` is a
  list of code units; `.length` is the length of that list.
* `String.prototype.trim` removes the ECMAScript `WhiteSpace` and
  `LineTerminator` code points from both ends; the regular-expression escape
  `\s` denotes the same set.
* The two regular expressions of `validateForm` carry no flag and are
  anchored by `^` and `$`, so `.test` decides whether the whole string
  belongs to the language of the expression. They are embedded as values of a
  small regular-expression type and run by a derivative matcher.
* React state (`formData`, `errors`) and the two external collaborators
  (`emailjs.send`, `toast`) are threaded explicitly through a `Model`.
* React renders again after each event, so a handler's closure holds the state
  left by the previous event: the handlers are functions of the current `Model`.
  The promise of `emailjs.send` settles in a later event, `fulfilled` or
  `rejected`, which runs the matching continuation of `.then`.
-/

namespace ContactSection

/-! ## JavaScript strings -/

/-- A JavaScript string: its UTF-16 code units. -/
abbrev JSString := List Nat

/-- UTF-16 code units of one Unicode scalar value. -/
def utf16 (c : Char) : List Nat :=
  if c.toNat < 0x10000 then [c.toNat]
  else [0xD800 + (c.toNat - 0x10000) / 0x400, 0xDC00 + (c.toNat - 0x10000) % 0x400]

/-- The JavaScript string written by a string literal. -/
def js (s : String) : JSString := s.toList.flatMap utf16

/-- ECMAScript `WhiteSpace` or `LineTerminator`: what `trim` strips and what
`\s` matches. -/
def isWhiteSpace (c : Nat) : Bool :=
  c == 0x09 || c == 0x0A || c == 0x0B || c == 0x0C || c == 0x0D || c == 0x20 ||
  c == 0xA0 || c == 0x1680 || (0x2000 ≤ c && c ≤ 0x200A) || c == 0x2028 ||
  c == 0x2029 || c == 0x202F || c == 0x205F || c == 0x3000 || c == 0xFEFF

/-- The escape `\d`: an ASCII digit. -/
def isDigit (c : Nat) : Bool := 0x30 ≤ c && c ≤ 0x39

/-- Removal of leading white space (`String.prototype.trimStart`). -/
def trimStart (s : JSString) : JSString := s.dropWhile isWhiteSpace

/-- Removal of trailing white space (`String.prototype.trimEnd`). -/
def trimEnd (s : JSString) : JSString := (s.reverse.dropWhile isWhiteSpace).reverse

/-- The method `String.prototype.trim`. -/
def trim (s : JSString) : JSString := trimEnd (trimStart s)

/-- JavaScript truthiness of a string: the empty string is the only falsy one. -/
def truthy (s : JSString) : Bool := !s.isEmpty

/-! ## Regular expressions -/

/-- Regular expressions over code units, with character classes given by
their membership test. -/
inductive Regex where
  | fail : Regex
  | eps : Regex
  | cls : (Nat → Bool) → Regex
  | seq : Regex → Regex → Regex
  | alt : Regex → Regex → Regex
  | star : Regex → Regex

namespace Regex

/-- The quantifier `+`. -/
def plus (r : Regex) : Regex := seq r (star r)

/-- The quantifier `?`. -/
def opt (r : Regex) : Regex := alt r eps

/-- The quantifier `{n,}`. -/
def atLeast : Nat → Regex → Regex
  | 0, r => star r
  | n + 1, r => seq r (atLeast n r)

/-- A single literal code unit. -/
def lit (c : Nat) : Regex := cls (fun d => d == c)

/-- Whether the expression accepts the empty string. -/
def nullable : Regex → Bool
  | fail => false
  | eps => true
  | cls _ => false
  | seq a b => nullable a && nullable b
  | alt a b => nullable a || nullable b
  | star _ => true

/-- Brzozowski derivative with respect to one code unit. -/
def deriv : Regex → Nat → Regex
  | fail, _ => fail
  | eps, _ => fail
  | cls p, c => if p c then eps else fail
  | seq a b, c =>
      if nullable a then alt (seq (deriv a c) b) (deriv b c) else seq (deriv a c) b
  | alt a b, c => alt (deriv a c) (deriv b c)
  | star a, c => seq (deriv a c) (star a)

/-- The method `RegExp.prototype.test` for an expression anchored at both
ends: does the whole string match? -/
def test (r : Regex) : JSString → Bool
  | [] => nullable r
  | c :: cs => test (deriv r c) cs

/-- Declarative meaning of a regular expression. -/
inductive Matches : Regex → JSString → Prop
  | eps : Matches eps []
  | cls {p : Nat → Bool} {c : Nat} : p c = true → Matches (cls p) [c]
  | seq {a b : Regex} {u v : JSString} :
      Matches a u → Matches b v → Matches (seq a b) (u ++ v)
  | altL {a b : Regex} {u : JSString} : Matches a u → Matches (alt a b) u
  | altR {a b : Regex} {u : JSString} : Matches b u → Matches (alt a b) u
  | starNil {a : Regex} : Matches (star a) []
  | starCons {a : Regex} {u v : JSString} :
      Matches a u → Matches (star a) v → Matches (star a) (u ++ v)

end Regex

/-- The class `[^\s@]`. -/
def notSpaceAt (c : Nat) : Bool := !(isWhiteSpace c || c == 0x40)

/-- The class `[\d\s-()]`: a digit, white space, `-`, `(` or `)`. The `-`
after the class escape `\s` is a literal hyphen. -/
def phoneClass (c : Nat) : Bool :=
  isDigit c || isWhiteSpace c || c == 0x2D || c == 0x28 || c == 0x29

/-- The expression `/^[^\s@]+@[^\s@]+\.[^\s@]+$/`. -/
def emailRegex : Regex :=
  .seq (.plus (.cls notSpaceAt))
    (.seq (.lit 0x40)
      (.seq (.plus (.cls notSpaceAt))
        (.seq (.lit 0x2E) (.plus (.cls notSpaceAt)))))

/-- The expression `/^\+?[\d\s-()]{10,}$/`. -/
def phoneRegex : Regex :=
  .seq (.opt (.lit 0x2B)) (.atLeast 10 (.cls phoneClass))

/-! ## Component state -/

/-- The five inputs of the form. -/
inductive FieldName where
  | firstName | email | phoneNumber | subject | message
  deriving DecidableEq

/-- The shape shared by the `formData` and `errors` state objects. -/
structure Fields where
  firstName : JSString
  email : JSString
  phoneNumber : JSString
  subject : JSString
  message : JSString
  deriving DecidableEq

namespace Fields

/-- The object with every entry `""`: the initial value of both pieces of state. -/
def blank : Fields := ⟨[], [], [], [], []⟩

/-- Property read `obj[name]`. -/
def get (o : Fields) : FieldName → JSString
  | .firstName => o.firstName
  | .email => o.email
  | .phoneNumber => o.phoneNumber
  | .subject => o.subject
  | .message => o.message

/-- The object spread with one key replaced: `{ ...obj, [name]: value }`. -/
def set (o : Fields) (name : FieldName) (value : JSString) : Fields :=
  match name with
  | .firstName => { o with firstName := value }
  | .email => { o with email := value }
  | .phoneNumber => { o with phoneNumber := value }
  | .subject => { o with subject := value }
  | .message => { o with message := value }

/-- The array `Object.values(obj)`. -/
def values (o : Fields) : List JSString :=
  [o.firstName, o.email, o.phoneNumber, o.subject, o.message]

end Fields

/-! ## `validateForm` -/

/-- First-name branch of `validateForm`. -/
def firstNameError (v : JSString) : JSString :=
  if !truthy (trim v) then js "Full name is required"
  else if (trim v).length < 2 then js "Full name must be at least 2 characters"
  else []

/-- Email branch of `validateForm`. -/
def emailError (v : JSString) : JSString :=
  if !truthy (trim v) then js "Email is required"
  else if !emailRegex.test v then js "Please enter a valid email address"
  else []

/-- Phone branch of `validateForm`. -/
def phoneNumberError (v : JSString) : JSString :=
  if truthy (trim v) && !phoneRegex.test v then js "Please enter a valid phone number"
  else []

/-- Subject branch of `validateForm`. -/
def subjectError (v : JSString) : JSString :=
  if !truthy (trim v) then js "Subject is required"
  else if (trim v).length < 5 then js "Subject must be at least 5 characters"
  else []

/-- Message branch of `validateForm`. -/
def messageError (v : JSString) : JSString :=
  if !truthy (trim v) then js "Message is required"
  else if (trim v).length < 10 then js "Message must be at least 10 characters"
  else []

/-- The object `newErrors` built by `validateForm`. -/
def newErrors (formData : Fields) : Fields where
  firstName := firstNameError formData.firstName
  email := emailError formData.email
  phoneNumber := phoneNumberError formData.phoneNumber
  subject := subjectError formData.subject
  message := messageError formData.message

/-- The function `validateForm`: the error object handed to `setErrors`, and the
returned boolean `!Object.values(newErrors).some(error => error !== "")`. -/
def validateForm (formData : Fields) : Fields × Bool :=
  (newErrors formData, !(newErrors formData).values.any (fun error => error != []))

/-! ## External collaborators and component state -/

/-- The third argument of `emailjs.send`: the template parameters. -/
structure TemplateParams where
  name : JSString
  email : JSString
  phone : JSString
  subject : JSString
  message : JSString
  deriving DecidableEq

/-- One invocation `emailjs.send(serviceID, templateID, templateParams, userID)`. -/
structure SendCall where
  serviceID : JSString
  templateID : JSString
  templateParams : TemplateParams
  userID : JSString
  deriving DecidableEq

/-- One notification: `toast.success(text)` or `toast.error(text)`. -/
inductive Toast where
  | success : JSString → Toast
  | error : JSString → Toast
  deriving DecidableEq

/-- Whether a notification is of kind success. -/
def Toast.isSuccess : Toast → Bool
  | .success _ => true
  | .error _ => false

/-- Whether a notification is of kind error. -/
def Toast.isError : Toast → Bool
  | .success _ => false
  | .error _ => true

/-- The state of `ContactUsForm` together with a record of what it has asked of
its collaborators: the two `useState` cells, the calls of `emailjs.send` and of
`toast` in the order they were made, and the number of promises returned by
`emailjs.send` that have not settled yet. -/
structure Model where
  formData : Fields
  errors : Fields
  sent : List SendCall
  toasts : List Toast
  pending : Nat
  deriving DecidableEq

/-- The component as mounted: both `useState` initial values, nothing sent,
nothing notified. -/
def Model.initial : Model := ⟨Fields.blank, Fields.blank, [], [], 0⟩

/-- The arguments `handleSubmit` gives to `emailjs.send`. -/
def sendCall (formData : Fields) : SendCall where
  serviceID := js "service_l8aprwm"
  templateID := js "template_gkestay"
  templateParams :=
    { name := formData.firstName
      email := formData.email
      phone := formData.phoneNumber
      subject := formData.subject
      message := formData.message }
  userID := js "k-O_EPnX8LFiGTSRa"

/-- The function `handleChange`. -/
def handleChange (m : Model) (name : FieldName) (value : JSString) : Model :=
  { m with
    formData := m.formData.set name value
    errors := if truthy (m.errors.get name) then m.errors.set name [] else m.errors }

/-- The function `handleSubmit`, up to the point where it returns: either the
early return after `toast.error`, or the return after `emailjs.send` has been
called and its promise is pending. -/
def handleSubmit (m : Model) : Model :=
  let m1 : Model := { m with errors := (validateForm m.formData).1 }
  if !(validateForm m.formData).2 then
    { m1 with toasts := m1.toasts ++ [Toast.error (js "Please fill all the fields in the form")] }
  else
    { m1 with sent := m1.sent ++ [sendCall m.formData], pending := m1.pending + 1 }

/-- The first continuation given to `.then`: the send succeeded. -/
def onFulfilled (m : Model) : Model :=
  { m with
    toasts := m.toasts ++ [Toast.success (js "Message sent successfully!")]
    formData := Fields.blank
    errors := Fields.blank }

/-- The second continuation given to `.then`: the send failed. -/
def onRejected (m : Model) : Model :=
  { m with
    toasts := m.toasts ++ [Toast.error (js "Failed to send message. Please try again later.")] }

/-- What can happen to the mounted component. -/
inductive Event where
  | change : FieldName → JSString → Event
  | submit : Event
  | fulfilled : Event
  | rejected : Event
  deriving DecidableEq

/-- One event. A promise can settle only while one is pending; settling runs
the matching continuation. -/
def step (m : Model) : Event → Option Model
  | .change name value => some (handleChange m name value)
  | .submit => some (handleSubmit m)
  | .fulfilled =>
      if 0 < m.pending then some (onFulfilled { m with pending := m.pending - 1 }) else none
  | .rejected =>
      if 0 < m.pending then some (onRejected { m with pending := m.pending - 1 }) else none

/-- A sequence of events, oldest first. -/
def run (m : Model) : List Event → Option Model
  | [] => some m
  | e :: es => (step m e).bind (fun m1 => run m1 es)

/-- The states the component can be in after mounting. -/
def Reachable (m : Model) : Prop := ∃ es, run Model.initial es = some m

/-! ## Vocabulary of the specification -/

/-- A string made of an optional leading `+` followed by at least 10 code
units of the class `p`. -/
def PhoneShape (p : Nat → Bool) (s : JSString) : Prop :=
  ∃ t, (s = t ∨ s = 0x2B :: t) ∧ 10 ≤ t.length ∧ ∀ c ∈ t, p c = true

/-- The characters the specification lists for a phone number: a digit, the
space character U+0020, `-`, `(` or `)`. -/
def specPhoneChar (c : Nat) : Bool :=
  isDigit c || c == 0x20 || c == 0x2D || c == 0x28 || c == 0x29

/-- A string of the shape `a@b.c` where `a`, `b` and `c` are non-empty and hold
neither white space nor `@`. -/
def EmailShape (s : JSString) : Prop :=
  ∃ a b c, s = a ++ 0x40 :: (b ++ 0x2E :: c) ∧ a ≠ [] ∧ b ≠ [] ∧ c ≠ [] ∧
    (∀ x ∈ a, notSpaceAt x = true) ∧ (∀ x ∈ b, notSpaceAt x = true) ∧
    (∀ x ∈ c, notSpaceAt x = true)

/-- The rule the specification gives for each field's value. -/
def MeetsRule : FieldName → JSString → Prop
  | .firstName, v => 2 ≤ (trim v).length
  | .email, v => EmailShape v
  | .phoneNumber, v => v = [] ∨ PhoneShape specPhoneChar v
  | .subject, v => 5 ≤ (trim v).length
  | .message, v => 10 ≤ (trim v).length

/-- The "is required" text of each required field; the phone number has none. -/
def requiredMessage : FieldName → Option JSString
  | .firstName => some (js "Full name is required")
  | .email => some (js "Email is required")
  | .phoneNumber => none
  | .subject => some (js "Subject is required")
  | .message => some (js "Message is required")

/-- The rule of a length-checked field with minimum `n`, relating a value `v`
to the stored error `e`. -/
def LengthRule (n : Nat) (required tooShort v e : JSString) : Prop :=
  (trim v = [] → e = required) ∧
  (1 ≤ (trim v).length ∧ (trim v).length < n → e = tooShort) ∧
  (n ≤ (trim v).length → e = [])

/-- Every code unit of the string is white space. -/
def AllWhiteSpace (s : JSString) : Prop := ∀ c ∈ s, isWhiteSpace c = true

/-- Each stored error is empty or is what `validateForm` computes for the
current value of its field. -/
def ErrorsAgree (m : Model) : Prop :=
  ∀ f, m.errors.get f = [] ∨ m.errors.get f = (validateForm m.formData).1.get f

/-- The form of the end-to-end example of the specification. -/
def adaForm : Fields where
  firstName := js "Ada Lovelace"
  email := js "ada@x.com"
  phoneNumber := js ""
  subject := js "Project Inquiry"
  message := js "Let's build something."

/-- A form whose full name is one letter between spaces, whose subject has four
letters and whose message is white space only. -/
def shortForm : Fields where
  firstName := js "  A  "
  email := js "ada@x.com"
  phoneNumber := js ""
  subject := js "Help"
  message := js " \t "

/-- The error `validateForm` computes for one field from that field's value. -/
def errorFor : FieldName → JSString → JSString
  | .firstName, v => firstNameError v
  | .email, v => emailError v
  | .phoneNumber, v => phoneNumberError v
  | .subject, v => subjectError v
  | .message, v => messageError v

/-- The mounted component after the form of the end-to-end example has been
typed in. -/
def adaModel : Model := { Model.initial with formData := adaForm }

/-- The same with the message `short`. -/
def shortModel : Model :=
  { Model.initial with formData := { adaForm with message := js "short" } }

/-- A session: a submit of the empty form, a one-letter subject, a second
submit, then the whole example form typed in, submitted and refused by the
mail service. -/
def sampleTrace : List Event :=
  [.submit, .change .subject (js "x"), .submit,
    .change .firstName (js "Ada Lovelace"), .change .email (js "ada@x.com"),
    .change .subject (js "Project Inquiry"), .change .message (js "Let's build something."),
    .submit, .rejected]

/-- The state at the end of `sampleTrace`. -/
def sampleState : Model := (run Model.initial sampleTrace).getD Model.initial

/-! ## Correctness of the matcher -/

namespace Regex

theorem matches_fail {s : JSString} : ¬ Matches fail s := by
  intro h; cases h

theorem matches_eps {s : JSString} : Matches eps s ↔ s = [] := by
  constructor
  · intro h; cases h; rfl
  · rintro rfl; exact Matches.eps

theorem matches_cls {p : Nat → Bool} {s : JSString} :
    Matches (cls p) s ↔ ∃ c, p c = true ∧ s = [c] := by
  constructor
  · intro h; cases h with
    | cls hc => exact ⟨_, hc, rfl⟩
  · rintro ⟨c, hc, rfl⟩; exact Matches.cls hc

theorem matches_seq {a b : Regex} {s : JSString} :
    Matches (seq a b) s ↔ ∃ u v, s = u ++ v ∧ Matches a u ∧ Matches b v := by
  constructor
  · intro h; cases h with
    | seq ha hb => exact ⟨_, _, rfl, ha, hb⟩
  · rintro ⟨u, v, rfl, ha, hb⟩; exact Matches.seq ha hb

theorem matches_alt {a b : Regex} {s : JSString} :
    Matches (alt a b) s ↔ Matches a s ∨ Matches b s := by
  constructor
  · intro h; cases h with
    | altL ha => exact Or.inl ha
    | altR hb => exact Or.inr hb
  · rintro (h | h)
    · exact Matches.altL h
    · exact Matches.altR h

/-- A non-empty match of `star a` starts with a non-empty match of `a`. -/
theorem matches_star_cons {a : Regex} {c : Nat} {s : JSString} :
    Matches (star a) (c :: s) ↔
      ∃ u v, s = u ++ v ∧ Matches a (c :: u) ∧ Matches (star a) v := by
  constructor
  · intro h
    generalize hr : star a = r at h
    generalize ht : c :: s = t at h
    induction h with
    | eps => cases hr
    | cls _ => cases hr
    | seq _ _ _ _ => cases hr
    | altL _ _ => cases hr
    | altR _ _ => cases hr
    | starNil => cases ht
    | @starCons a1 u v hu hv _ ihv =>
      cases hr
      cases u with
      | nil => exact ihv rfl (by simpa using ht)
      | cons d u1 =>
        simp only [List.cons_append, List.cons.injEq] at ht
        obtain ⟨rfl, rfl⟩ := ht
        exact ⟨u1, v, rfl, hu, hv⟩
  · rintro ⟨u, v, rfl, hu, hv⟩
    exact Matches.starCons hu hv

theorem nullable_iff (r : Regex) : nullable r = true ↔ Matches r [] := by
  induction r with
  | fail => simp [nullable, matches_fail]
  | eps => simp [nullable, matches_eps]
  | cls p => simp [nullable, matches_cls]
  | seq a b iha ihb =>
    simp only [nullable, Bool.and_eq_true, iha, ihb, matches_seq]
    constructor
    · rintro ⟨ha, hb⟩; exact ⟨[], [], rfl, ha, hb⟩
    · rintro ⟨u, v, h, ha, hb⟩
      have h1 : u = [] ∧ v = [] := by simpa using h.symm
      rw [h1.1] at ha; rw [h1.2] at hb
      exact ⟨ha, hb⟩
  | alt a b iha ihb => simp [nullable, iha, ihb, matches_alt]
  | star a _ => simp [nullable, Matches.starNil]

theorem deriv_iff (r : Regex) (c : Nat) (s : JSString) :
    Matches (deriv r c) s ↔ Matches r (c :: s) := by
  induction r generalizing s with
  | fail => simp [deriv, matches_fail]
  | eps => simp [deriv, matches_fail, matches_eps]
  | cls p =>
    cases hp : p c with
    | true =>
      simp only [deriv, hp, if_true, matches_eps, matches_cls]
      constructor
      · rintro rfl; exact ⟨c, hp, rfl⟩
      · rintro ⟨d, _, h⟩
        simp only [List.cons.injEq] at h
        exact h.2
    | false =>
      simp only [deriv, hp, Bool.false_eq_true, if_false, matches_fail, matches_cls, false_iff]
      rintro ⟨d, hd, h⟩
      simp only [List.cons.injEq] at h
      rw [← h.1, hp] at hd
      cases hd
  | seq a b iha ihb =>
    have key : Matches (seq a b) (c :: s) ↔
        (∃ u v, s = u ++ v ∧ Matches a (c :: u) ∧ Matches b v) ∨
          (Matches a [] ∧ Matches b (c :: s)) := by
      rw [matches_seq]
      constructor
      · rintro ⟨u, v, h, ha, hb⟩
        cases u with
        | nil => right; simp only [List.nil_append] at h; exact ⟨ha, h ▸ hb⟩
        | cons d u1 =>
          simp only [List.cons_append, List.cons.injEq] at h
          obtain ⟨rfl, rfl⟩ := h
          exact Or.inl ⟨u1, v, rfl, ha, hb⟩
      · rintro (⟨u, v, rfl, ha, hb⟩ | ⟨ha, hb⟩)
        · exact ⟨c :: u, v, rfl, ha, hb⟩
        · exact ⟨[], c :: s, rfl, ha, hb⟩
    rw [key]
    cases hn : nullable a with
    | true =>
      have hnil : Matches a [] := (nullable_iff a).1 hn
      simp only [deriv, hn, if_true, matches_alt, matches_seq, iha, ihb, hnil, true_and]
    | false =>
      have hnil : ¬ Matches a [] := fun h => by
        rw [(nullable_iff a).2 h] at hn; cases hn
      simp only [deriv, hn, Bool.false_eq_true, if_false, matches_seq, iha, hnil, false_and,
        or_false]
  | alt a b iha ihb => simp [deriv, matches_alt, iha, ihb]
  | star a iha =>
    simp only [deriv, matches_seq, iha, matches_star_cons]

/-- The matcher decides the declarative meaning. -/
theorem test_iff (r : Regex) (s : JSString) : test r s = true ↔ Matches r s := by
  induction s generalizing r with
  | nil => simpa [test] using nullable_iff r
  | cons c s ih => rw [test, ih, deriv_iff]

end Regex

/-! ## What `trim` does -/

theorem dropWhile_append_of_all (p : Nat → Bool) (l s : JSString)
    (h : ∀ c ∈ l, p c = true) : (l ++ s).dropWhile p = s.dropWhile p := by
  induction l with
  | nil => rfl
  | cons d l ih =>
    have hd : p d = true := h d (List.mem_cons_self d l)
    have hl : ∀ c ∈ l, p c = true := fun c hc => h c (List.mem_cons_of_mem d hc)
    simp only [List.cons_append, List.dropWhile_cons, hd, if_true]
    exact ih hl

theorem dropWhile_eq_nil (p : Nat → Bool) (s : JSString) :
    s.dropWhile p = [] ↔ ∀ c ∈ s, p c = true := by
  induction s with
  | nil => simp
  | cons d s ih =>
    cases hd : p d with
    | true => simp [List.dropWhile_cons, hd, ih]
    | false => simp [List.dropWhile_cons, hd]

theorem trimStart_append_left (l s : JSString) (h : ∀ c ∈ l, isWhiteSpace c = true) :
    trimStart (l ++ s) = trimStart s :=
  dropWhile_append_of_all isWhiteSpace l s h

theorem trimEnd_append_right (s r : JSString) (h : ∀ c ∈ r, isWhiteSpace c = true) :
    trimEnd (s ++ r) = trimEnd s := by
  unfold trimEnd
  rw [List.reverse_append, dropWhile_append_of_all isWhiteSpace r.reverse s.reverse]
  intro c hc
  exact h c (List.mem_reverse.1 hc)

theorem trimEnd_eq_nil (s : JSString) :
    trimEnd s = [] ↔ ∀ c ∈ s, isWhiteSpace c = true := by
  unfold trimEnd
  rw [List.reverse_eq_nil_iff, dropWhile_eq_nil]
  simp only [List.mem_reverse]

theorem trim_append_right (s r : JSString) (h : ∀ c ∈ r, isWhiteSpace c = true) :
    trim (s ++ r) = trim s := by
  induction s with
  | nil =>
    have h1 : trimStart r = [] := (dropWhile_eq_nil isWhiteSpace r).2 h
    simp only [List.nil_append, trim, h1]
    rfl
  | cons d s ih =>
    cases hd : isWhiteSpace d with
    | true =>
      have e1 : trimStart (d :: s ++ r) = trimStart (s ++ r) := by
        simp [trimStart, List.dropWhile_cons, hd]
      have e2 : trimStart (d :: s) = trimStart s := by
        simp [trimStart, List.dropWhile_cons, hd]
      unfold trim at ih ⊢
      rw [e1, e2, ih]
    | false =>
      have e1 : trimStart (d :: s ++ r) = (d :: s) ++ r := by
        simp [trimStart, List.dropWhile_cons, hd]
      have e2 : trimStart (d :: s) = d :: s := by
        simp [trimStart, List.dropWhile_cons, hd]
      unfold trim
      rw [e1, e2, trimEnd_append_right _ _ h]

/-- White space around a value does not change what `trim` returns. -/
theorem trim_pad (l v r : JSString) (hl : ∀ c ∈ l, isWhiteSpace c = true)
    (hr : ∀ c ∈ r, isWhiteSpace c = true) : trim (l ++ v ++ r) = trim v := by
  rw [trim_append_right _ _ hr]
  unfold trim
  rw [trimStart_append_left _ _ hl]

/-- The trimmed string is empty exactly when the string is all white space. -/
theorem trim_eq_nil (s : JSString) : trim s = [] ↔ ∀ c ∈ s, isWhiteSpace c = true := by
  induction s with
  | nil => simp [trim, trimStart, trimEnd]
  | cons d s ih =>
    cases hd : isWhiteSpace d with
    | true =>
      have e : trimStart (d :: s) = trimStart s := by
        simp [trimStart, List.dropWhile_cons, hd]
      unfold trim at ih ⊢
      rw [e, ih]
      simp [hd]
    | false =>
      have e : trimStart (d :: s) = d :: s := by
        simp [trimStart, List.dropWhile_cons, hd]
      unfold trim
      rw [e, trimEnd_eq_nil]

theorem truthy_iff (s : JSString) : truthy s = true ↔ s ≠ [] := by
  cases s <;> simp [truthy]

/-! ## The languages of the two expressions -/

namespace Regex

theorem matches_lit {c : Nat} {s : JSString} : Matches (lit c) s ↔ s = [c] := by
  unfold lit
  rw [matches_cls]
  constructor
  · rintro ⟨d, hd, rfl⟩
    have : d = c := by simpa using hd
    rw [this]
  · rintro rfl
    exact ⟨c, by simp, rfl⟩

theorem matches_star_cls {p : Nat → Bool} {s : JSString} :
    Matches (star (cls p)) s ↔ ∀ c ∈ s, p c = true := by
  induction s with
  | nil => simp [Matches.starNil]
  | cons d s ih =>
    rw [matches_star_cons]
    constructor
    · rintro ⟨u, v, rfl, hu, hv⟩
      rw [matches_cls] at hu
      obtain ⟨e, he, h⟩ := hu
      simp only [List.cons.injEq] at h
      obtain ⟨rfl, rfl⟩ := h
      rw [List.nil_append] at ih
      intro c hc
      rcases List.mem_cons.1 hc with rfl | hc
      · exact he
      · exact ih.1 hv c hc
    · intro h
      refine ⟨[], s, rfl, Matches.cls (h d (List.mem_cons_self d s)), ?_⟩
      exact ih.2 (fun c hc => h c (List.mem_cons_of_mem d hc))

theorem matches_atLeast_cls {p : Nat → Bool} (n : Nat) {s : JSString} :
    Matches (atLeast n (cls p)) s ↔ n ≤ s.length ∧ ∀ c ∈ s, p c = true := by
  induction n generalizing s with
  | zero => simp [atLeast, matches_star_cls]
  | succ n ih =>
    simp only [atLeast, matches_seq, matches_cls]
    constructor
    · rintro ⟨u, v, rfl, ⟨d, hd, rfl⟩, hv⟩
      obtain ⟨h1, h2⟩ := ih.1 hv
      refine ⟨by simp only [List.singleton_append, List.length_cons]; omega, ?_⟩
      intro c hc
      rcases List.mem_cons.1 hc with rfl | hc
      · exact hd
      · exact h2 c hc
    · rintro ⟨hlen, hall⟩
      cases s with
      | nil => simp at hlen
      | cons d s =>
        refine ⟨[d], s, rfl, ⟨d, hall d (List.mem_cons_self d s), rfl⟩, ih.2 ⟨?_, ?_⟩⟩
        · simp only [List.length_cons] at hlen; omega
        · exact fun c hc => hall c (List.mem_cons_of_mem d hc)

theorem matches_plus_cls {p : Nat → Bool} {s : JSString} :
    Matches (plus (cls p)) s ↔ s ≠ [] ∧ ∀ c ∈ s, p c = true := by
  have h := matches_atLeast_cls (p := p) 1 (s := s)
  have e : atLeast 1 (cls p) = plus (cls p) := rfl
  rw [e] at h
  rw [h]
  cases s <;> simp

end Regex

theorem phoneRegex_test_iff (s : JSString) :
    phoneRegex.test s = true ↔ PhoneShape phoneClass s := by
  rw [Regex.test_iff]
  unfold phoneRegex Regex.opt PhoneShape
  simp only [Regex.matches_seq, Regex.matches_alt, Regex.matches_lit, Regex.matches_eps,
    Regex.matches_atLeast_cls]
  constructor
  · rintro ⟨u, v, rfl, (rfl | rfl), hlen, hall⟩
    · exact ⟨v, Or.inr rfl, hlen, hall⟩
    · exact ⟨v, Or.inl rfl, hlen, hall⟩
  · rintro ⟨t, (rfl | rfl), hlen, hall⟩
    · exact ⟨[], _, rfl, Or.inr rfl, hlen, hall⟩
    · exact ⟨[0x2B], t, rfl, Or.inl rfl, hlen, hall⟩

theorem emailRegex_test_iff (s : JSString) :
    emailRegex.test s = true ↔ EmailShape s := by
  rw [Regex.test_iff]
  unfold emailRegex EmailShape
  simp only [Regex.matches_seq, Regex.matches_lit, Regex.matches_plus_cls]
  constructor
  · rintro ⟨a, r1, rfl, ⟨ha, hpa⟩, at1, r2, rfl, rfl, b, r3, rfl, ⟨hb, hpb⟩, dot, c, rfl, rfl,
      hc, hpc⟩
    exact ⟨a, b, c, by simp, ha, hb, hc, hpa, hpb, hpc⟩
  · rintro ⟨a, b, c, rfl, ha, hb, hc, hpa, hpb, hpc⟩
    exact ⟨a, _, rfl, ⟨ha, hpa⟩, [0x40], _, rfl, rfl, b, _, rfl, ⟨hb, hpb⟩, [0x2E], c, rfl, rfl,
      hc, hpc⟩

theorem phoneClass_of_specPhoneChar {c : Nat} (h : specPhoneChar c = true) :
    phoneClass c = true := by
  unfold specPhoneChar at h
  unfold phoneClass
  simp only [Bool.or_eq_true, beq_iff_eq] at h ⊢
  rcases h with (((h | h) | h) | h) | h
  · exact Or.inl (Or.inl (Or.inl (Or.inl h)))
  · exact Or.inl (Or.inl (Or.inl (Or.inr (by rw [h]; decide))))
  · exact Or.inl (Or.inl (Or.inr h))
  · exact Or.inl (Or.inr h)
  · exact Or.inr h

theorem PhoneShape.of_spec {s : JSString} (h : PhoneShape specPhoneChar s) :
    PhoneShape phoneClass s := by
  obtain ⟨t, ht, hlen, hall⟩ := h
  exact ⟨t, ht, hlen, fun c hc => phoneClass_of_specPhoneChar (hall c hc)⟩

theorem not_isWhiteSpace_of_notSpaceAt {x : Nat} (h : notSpaceAt x = true) :
    isWhiteSpace x = false := by
  unfold notSpaceAt at h
  cases hw : isWhiteSpace x with
  | false => rfl
  | true => rw [hw] at h; simp at h

theorem ne_at_of_notSpaceAt {x : Nat} (h : notSpaceAt x = true) : x ≠ 0x40 := by
  rintro rfl
  revert h
  decide

theorem EmailShape.trim_ne_nil {s : JSString} (h : EmailShape s) : trim s ≠ [] := by
  obtain ⟨a, b, c, rfl, ha, -, -, hpa, -, -⟩ := h
  intro ht
  rw [trim_eq_nil] at ht
  cases a with
  | nil => exact ha rfl
  | cons x a =>
    have h1 := ht x (by simp)
    have h2 := not_isWhiteSpace_of_notSpaceAt (hpa x (List.mem_cons_self x a))
    rw [h1] at h2
    cases h2

/-- Two ways of cutting a string at an occurrence of `x`, the first of them at
the first occurrence. -/
theorem split_at_first (x : Nat) (a r u v : JSString) (hx : x ∉ a)
    (h : a ++ x :: r = u ++ x :: v) :
    (u = a ∧ v = r) ∨ ∃ w, r = w ++ x :: v := by
  induction a generalizing u with
  | nil =>
    cases u with
    | nil =>
      simp only [List.nil_append, List.cons.injEq, true_and] at h
      exact Or.inl ⟨rfl, h.symm⟩
    | cons y u =>
      simp only [List.nil_append, List.cons_append, List.cons.injEq] at h
      exact Or.inr ⟨u, h.2⟩
  | cons y a ih =>
    cases u with
    | nil =>
      simp only [List.nil_append, List.cons_append, List.cons.injEq] at h
      exact absurd (h.1 ▸ List.mem_cons_self y a) hx
    | cons z u =>
      simp only [List.cons_append, List.cons.injEq] at h
      have hx1 : x ∉ a := fun hm => hx (List.mem_cons_of_mem y hm)
      rcases ih u hx1 h.2 with ⟨rfl, rfl⟩ | ⟨w, hw⟩
      · exact Or.inl ⟨by rw [h.1], rfl⟩
      · exact Or.inr ⟨w, hw⟩

theorem EmailShape.mem_at {s : JSString} (h : EmailShape s) : 0x40 ∈ s := by
  obtain ⟨a, b, c, rfl, -⟩ := h
  simp

theorem EmailShape.dot_after_at {s u v : JSString} (h : EmailShape s)
    (hs : s = u ++ 0x40 :: v) : 0x2E ∈ v := by
  obtain ⟨a, b, c, rfl, -, -, -, hpa, hpb, hpc⟩ := h
  have hxa : (0x40 : Nat) ∉ a := fun hm => ne_at_of_notSpaceAt (hpa _ hm) rfl
  rcases split_at_first 0x40 a _ u v hxa hs with ⟨-, rfl⟩ | ⟨w, hw⟩
  · simp
  · exfalso
    have hm : (0x40 : Nat) ∈ b ++ 0x2E :: c := by rw [hw]; simp
    rcases List.mem_append.1 hm with hm | hm
    · exact ne_at_of_notSpaceAt (hpb _ hm) rfl
    · rcases List.mem_cons.1 hm with hm | hm
      · exact absurd hm (by decide)
      · exact ne_at_of_notSpaceAt (hpc _ hm) rfl

/-! ## The branches of `validateForm` -/

theorem firstNameError_rule (v : JSString) :
    LengthRule 2 (js "Full name is required") (js "Full name must be at least 2 characters")
      v (firstNameError v) := by
  unfold LengthRule firstNameError
  cases h : trim v with
  | nil => simp [truthy]
  | cons c t =>
    have e : (!truthy (c :: t)) = false := rfl
    refine ⟨fun h0 => (by cases h0), fun h1 => ?_, fun h2 => ?_⟩
    · have h3 : (c :: t).length < 2 := h1.2
      simp only [e, Bool.false_eq_true, if_false, if_pos h3]
    · have h3 : ¬ (c :: t).length < 2 := by omega
      simp only [e, Bool.false_eq_true, if_false, if_neg h3]

theorem subjectError_rule (v : JSString) :
    LengthRule 5 (js "Subject is required") (js "Subject must be at least 5 characters")
      v (subjectError v) := by
  unfold LengthRule subjectError
  cases h : trim v with
  | nil => simp [truthy]
  | cons c t =>
    have e : (!truthy (c :: t)) = false := rfl
    refine ⟨fun h0 => (by cases h0), fun h1 => ?_, fun h2 => ?_⟩
    · have h3 : (c :: t).length < 5 := h1.2
      simp only [e, Bool.false_eq_true, if_false, if_pos h3]
    · have h3 : ¬ (c :: t).length < 5 := by omega
      simp only [e, Bool.false_eq_true, if_false, if_neg h3]

theorem messageError_rule (v : JSString) :
    LengthRule 10 (js "Message is required") (js "Message must be at least 10 characters")
      v (messageError v) := by
  unfold LengthRule messageError
  cases h : trim v with
  | nil => simp [truthy]
  | cons c t =>
    have e : (!truthy (c :: t)) = false := rfl
    refine ⟨fun h0 => (by cases h0), fun h1 => ?_, fun h2 => ?_⟩
    · have h3 : (c :: t).length < 10 := h1.2
      simp only [e, Bool.false_eq_true, if_false, if_pos h3]
    · have h3 : ¬ (c :: t).length < 10 := by omega
      simp only [e, Bool.false_eq_true, if_false, if_neg h3]

theorem length_pos_of_le {n : Nat} {s : JSString} (hn : 0 < n) (h : n ≤ s.length) : s ≠ [] := by
  rintro rfl
  simp at h
  omega

theorem emailError_blank {v : JSString} (h : trim v = []) :
    emailError v = js "Email is required" := by
  simp [emailError, truthy, h]

theorem emailError_shape {v : JSString} (h : EmailShape v) : emailError v = [] := by
  have h1 : truthy (trim v) = true := (truthy_iff _).2 h.trim_ne_nil
  have h2 : emailRegex.test v = true := (emailRegex_test_iff v).2 h
  simp [emailError, h1, h2]

theorem emailError_bad {v : JSString} (h0 : trim v ≠ []) (h : ¬ EmailShape v) :
    emailError v = js "Please enter a valid email address" := by
  have h1 : truthy (trim v) = true := (truthy_iff _).2 h0
  have h2 : emailRegex.test v = false := by
    cases ht : emailRegex.test v with
    | false => rfl
    | true => exact absurd ((emailRegex_test_iff v).1 ht) h
  simp [emailError, h1, h2]

theorem phoneNumberError_blank {v : JSString} (h : trim v = []) : phoneNumberError v = [] := by
  simp [phoneNumberError, truthy, h]

theorem phoneNumberError_shape {v : JSString} (h : PhoneShape phoneClass v) :
    phoneNumberError v = [] := by
  have h2 : phoneRegex.test v = true := (phoneRegex_test_iff v).2 h
  simp [phoneNumberError, h2]

theorem phoneNumberError_bad {v : JSString} (h0 : trim v ≠ []) (h : ¬ PhoneShape phoneClass v) :
    phoneNumberError v = js "Please enter a valid phone number" := by
  have h1 : truthy (trim v) = true := (truthy_iff _).2 h0
  have h2 : phoneRegex.test v = false := by
    cases ht : phoneRegex.test v with
    | false => rfl
    | true => exact absurd ((phoneRegex_test_iff v).1 ht) h
  simp [phoneNumberError, h1, h2]

theorem trim_nil : trim ([] : JSString) = [] := rfl

/-- The boolean returned by `validateForm` says whether every stored entry is
the empty string. -/
theorem validateForm_true_iff (fd : Fields) :
    (validateForm fd).2 = true ↔ ∀ f, (validateForm fd).1.get f = [] := by
  simp only [validateForm, Fields.values, List.any_cons, List.any_nil, Bool.or_false,
    Bool.not_eq_true', Bool.or_eq_false_iff, bne_eq_false_iff_eq]
  constructor
  · rintro ⟨h1, h2, h3, h4, h5⟩ f
    cases f <;> simp only [Fields.get] <;> assumption
  · intro h
    exact ⟨h .firstName, h .email, h .phoneNumber, h .subject, h .message⟩

theorem validateForm_false_iff (fd : Fields) :
    (validateForm fd).2 = false ↔ ∃ f, (validateForm fd).1.get f ≠ [] := by
  rw [← Bool.not_eq_true, validateForm_true_iff]
  push_neg
  rfl

/-- A value that meets the specification's rule for its field gets no error. -/
theorem error_of_meetsRule (fd : Fields) (f : FieldName) (h : MeetsRule f (fd.get f)) :
    (validateForm fd).1.get f = [] := by
  cases f with
  | firstName => exact (firstNameError_rule fd.firstName).2.2 h
  | email => exact emailError_shape h
  | phoneNumber =>
    rcases h with h | h
    · have h' : fd.phoneNumber = [] := h
      show phoneNumberError fd.phoneNumber = []
      rw [h']
      exact phoneNumberError_blank trim_nil
    · exact phoneNumberError_shape h.of_spec
  | subject => exact (subjectError_rule fd.subject).2.2 h
  | message => exact (messageError_rule fd.message).2.2 h

/-- An empty required field gets its "is required" text. -/
theorem error_of_empty (fd : Fields) (f : FieldName) (msg : JSString)
    (hreq : requiredMessage f = some msg) (h : fd.get f = []) :
    (validateForm fd).1.get f = msg := by
  cases f with
  | firstName =>
    have h' : fd.firstName = [] := h
    cases hreq
    show firstNameError fd.firstName = _
    rw [h']; rfl
  | email =>
    have h' : fd.email = [] := h
    cases hreq
    show emailError fd.email = _
    rw [h']; rfl
  | phoneNumber => cases hreq
  | subject =>
    have h' : fd.subject = [] := h
    cases hreq
    show subjectError fd.subject = _
    rw [h']; rfl
  | message =>
    have h' : fd.message = [] := h
    cases hreq
    show messageError fd.message = _
    rw [h']; rfl

theorem requiredMessage_ne_nil {f : FieldName} {msg : JSString}
    (hreq : requiredMessage f = some msg) : msg ≠ [] := by
  cases f <;> cases hreq <;> decide

theorem firstNameError_congr {v w : JSString} (h : trim v = trim w) :
    firstNameError v = firstNameError w := by
  unfold firstNameError; rw [h]

theorem subjectError_congr {v w : JSString} (h : trim v = trim w) :
    subjectError v = subjectError w := by
  unfold subjectError; rw [h]

theorem messageError_congr {v w : JSString} (h : trim v = trim w) :
    messageError v = messageError w := by
  unfold messageError; rw [h]

/-! ## The validator (claims C4 to C8) -/

/-- C4: when every field meets its rule (trimmed full name of at least 2 code
units, email of the shape `a@b.c` without white space or further `@`, phone
number empty or an optional `+` followed by at least 10 of digit, space, `-`,
`(`, `)`, trimmed subject of at least 5 and trimmed message of at least 10),
`validateForm` returns `true` and every entry of the error object it stores is
the empty string. -/
theorem C4_validateForm_accepts (fd : Fields) (h : ∀ f, MeetsRule f (fd.get f)) :
    (validateForm fd).2 = true ∧ ∀ f, (validateForm fd).1.get f = [] := by
  have hall : ∀ f, (validateForm fd).1.get f = [] := fun f => error_of_meetsRule fd f (h f)
  exact ⟨(validateForm_true_iff fd).2 hall, hall⟩

/-- C5: when one required field (full name, email, subject or message) is the
empty string and every other field meets its rule, `validateForm` returns
`false`, stores that field's "is required" text for it, and stores the empty
string for every other field, the phone number included. -/
theorem C5_empty_required_field (fd : Fields) (f : FieldName) (msg : JSString)
    (hreq : requiredMessage f = some msg) (hempty : fd.get f = [])
    (hothers : ∀ g, g ≠ f → MeetsRule g (fd.get g)) :
    (validateForm fd).2 = false ∧ (validateForm fd).1.get f = msg ∧
      ∀ g, g ≠ f → (validateForm fd).1.get g = [] := by
  have hf : (validateForm fd).1.get f = msg := error_of_empty fd f msg hreq hempty
  refine ⟨(validateForm_false_iff fd).2 ⟨f, ?_⟩, hf, fun g hg => ?_⟩
  · rw [hf]; exact requiredMessage_ne_nil hreq
  · exact error_of_meetsRule fd g (hothers g hg)

/-- C6, as amended: for an email value that is not empty after trimming and
that holds no `@`, or holds an `@` with no `.` after it, `validateForm` stores
"Please enter a valid email address" for the email and returns `false`; for an
email value that is empty after trimming it stores "Email is required" and
returns `false`. -/
theorem C6_email_format_error (fd : Fields) :
    (trim fd.email ≠ [] →
      ((0x40 : Nat) ∉ fd.email ∨ ∃ u v, fd.email = u ++ 0x40 :: v ∧ (0x2E : Nat) ∉ v) →
      (validateForm fd).1.email = js "Please enter a valid email address" ∧
        (validateForm fd).2 = false) ∧
    (trim fd.email = [] →
      (validateForm fd).1.email = js "Email is required" ∧ (validateForm fd).2 = false) := by
  constructor
  · intro hne h
    have hshape : ¬ EmailShape fd.email := by
      intro hs
      rcases h with h | ⟨u, v, huv, hdot⟩
      · exact h hs.mem_at
      · exact hdot (hs.dot_after_at huv)
    have he : (validateForm fd).1.email = js "Please enter a valid email address" :=
      emailError_bad hne hshape
    refine ⟨he, (validateForm_false_iff fd).2 ⟨.email, ?_⟩⟩
    show (validateForm fd).1.email ≠ []
    rw [he]; decide
  · intro hb
    have he : (validateForm fd).1.email = js "Email is required" := emailError_blank hb
    refine ⟨he, (validateForm_false_iff fd).2 ⟨.email, ?_⟩⟩
    show (validateForm fd).1.email ≠ []
    rw [he]; decide

/-- C7, as amended: a phone number that is empty after trimming gets no error;
any other phone number gets no error exactly when it is an optional leading `+`
followed by at least 10 code units each of which is a digit, a white-space
character (any character of `\s`, not the space alone), `-`, `(` or `)`, and
gets "Please enter a valid phone number" otherwise. -/
theorem C7_phone_rule (fd : Fields) :
    (trim fd.phoneNumber = [] → (validateForm fd).1.phoneNumber = []) ∧
    (trim fd.phoneNumber ≠ [] →
      ((validateForm fd).1.phoneNumber = [] ↔ PhoneShape phoneClass fd.phoneNumber) ∧
      (¬ PhoneShape phoneClass fd.phoneNumber →
        (validateForm fd).1.phoneNumber = js "Please enter a valid phone number")) := by
  refine ⟨fun hb => phoneNumberError_blank hb, fun hne => ⟨⟨fun he => ?_, fun hs => ?_⟩, fun hs => ?_⟩⟩
  · by_contra hs
    have hbad : (validateForm fd).1.phoneNumber = js "Please enter a valid phone number" :=
      phoneNumberError_bad hne hs
    rw [he] at hbad
    revert hbad
    decide
  · exact phoneNumberError_shape hs
  · exact phoneNumberError_bad hne hs

/-- C8: for the full name (minimum 2), the subject (minimum 5) and the message
(minimum 10), measured after trimming white space from both ends,
`validateForm` stores the "is required" text when the trimmed value is empty,
the "must be at least N characters" text when the trimmed length is at least 1
and below the minimum, and the empty string when it reaches the minimum; white
space added before and after a value changes none of the three stored errors. -/
theorem C8_length_rules (fd : Fields) :
    LengthRule 2 (js "Full name is required") (js "Full name must be at least 2 characters")
      fd.firstName (validateForm fd).1.firstName ∧
    LengthRule 5 (js "Subject is required") (js "Subject must be at least 5 characters")
      fd.subject (validateForm fd).1.subject ∧
    LengthRule 10 (js "Message is required") (js "Message must be at least 10 characters")
      fd.message (validateForm fd).1.message ∧
    ∀ l r : JSString, AllWhiteSpace l → AllWhiteSpace r →
      (validateForm { fd with firstName := l ++ fd.firstName ++ r }).1.firstName =
        (validateForm fd).1.firstName ∧
      (validateForm { fd with subject := l ++ fd.subject ++ r }).1.subject =
        (validateForm fd).1.subject ∧
      (validateForm { fd with message := l ++ fd.message ++ r }).1.message =
        (validateForm fd).1.message := by
  refine ⟨firstNameError_rule _, subjectError_rule _, messageError_rule _, fun l r hl hr => ?_⟩
  exact ⟨firstNameError_congr (trim_pad l _ r hl hr), subjectError_congr (trim_pad l _ r hl hr),
    messageError_congr (trim_pad l _ r hl hr)⟩

theorem adaForm_meetsRule (p : JSString) (hp : p = [] ∨ PhoneShape specPhoneChar p) (g : FieldName) :
    MeetsRule g (({ adaForm with phoneNumber := p } : Fields).get g) := by
  cases g with
  | firstName => show 2 ≤ (trim (js "Ada Lovelace")).length; decide
  | email =>
    show EmailShape (js "ada@x.com")
    exact ⟨js "ada", js "x", js "com", by decide, by decide, by decide, by decide, by decide,
      by decide, by decide⟩
  | phoneNumber => exact hp
  | subject => show 5 ≤ (trim (js "Project Inquiry")).length; decide
  | message => show 10 ≤ (trim (js "Let's build something.")).length; decide

/-- C4 at the form of the end-to-end example with the phone number
`+1 (555) 123-4567`. -/
theorem C4_validateForm_accepts_witness :
    (∀ f, MeetsRule f (({ adaForm with phoneNumber := js "+1 (555) 123-4567" } : Fields).get f)) ∧
    (validateForm { adaForm with phoneNumber := js "+1 (555) 123-4567" }).2 = true ∧
    ∀ f, (validateForm { adaForm with phoneNumber := js "+1 (555) 123-4567" }).1.get f = [] :=
  have h : ∀ f, MeetsRule f (({ adaForm with phoneNumber := js "+1 (555) 123-4567" } : Fields).get f) :=
    adaForm_meetsRule _ (Or.inr ⟨js "1 (555) 123-4567", Or.inr (by decide), by decide, by decide⟩)
  ⟨h, C4_validateForm_accepts _ h⟩

/-- C5 at the form of the end-to-end example with the email left empty. -/
theorem C5_empty_required_field_witness :
    requiredMessage .email = some (js "Email is required") ∧
    ({ adaForm with email := js "" } : Fields).get .email = [] ∧
    (∀ g, g ≠ FieldName.email → MeetsRule g (({ adaForm with email := js "" } : Fields).get g)) ∧
    (validateForm { adaForm with email := js "" }).2 = false ∧
    (validateForm { adaForm with email := js "" }).1.get .email = js "Email is required" ∧
    ∀ g, g ≠ FieldName.email → (validateForm { adaForm with email := js "" }).1.get g = [] :=
  have h : ∀ g, g ≠ FieldName.email →
      MeetsRule g (({ adaForm with email := js "" } : Fields).get g) := by
    intro g hg
    cases g with
    | email => exact absurd rfl hg
    | firstName => exact adaForm_meetsRule [] (Or.inl rfl) .firstName
    | phoneNumber => exact adaForm_meetsRule [] (Or.inl rfl) .phoneNumber
    | subject => exact adaForm_meetsRule [] (Or.inl rfl) .subject
    | message => exact adaForm_meetsRule [] (Or.inl rfl) .message
  ⟨rfl, rfl, h, C5_empty_required_field _ .email _ rfl rfl h⟩

/-- C6 as stated fails at the empty email: it holds no `@`, and the error
stored for it is "Email is required", not the format error. -/
theorem C6_counterexample :
    (0x40 : Nat) ∉ ({ adaForm with email := js "" } : Fields).email ∧
    (validateForm { adaForm with email := js "" }).1.email = js "Email is required" ∧
    (validateForm { adaForm with email := js "" }).1.email ≠
      js "Please enter a valid email address" := by
  decide

/-- C6 as amended, at the emails `ada.x.com` (no `@`), `ada@xcom` (no `.` after
the `@`) and three spaces (blank). -/
theorem C6_email_format_error_witness :
    ((validateForm { adaForm with email := js "ada.x.com" }).1.email =
        js "Please enter a valid email address" ∧
      (validateForm { adaForm with email := js "ada.x.com" }).2 = false) ∧
    ((validateForm { adaForm with email := js "ada@xcom" }).1.email =
        js "Please enter a valid email address" ∧
      (validateForm { adaForm with email := js "ada@xcom" }).2 = false) ∧
    ((validateForm { adaForm with email := js "   " }).1.email = js "Email is required" ∧
      (validateForm { adaForm with email := js "   " }).2 = false) :=
  ⟨(C6_email_format_error { adaForm with email := js "ada.x.com" }).1 (by decide)
      (Or.inl (by decide)),
    (C6_email_format_error { adaForm with email := js "ada@xcom" }).1 (by decide)
      (Or.inr ⟨js "ada", js "xcom", by decide, by decide⟩),
    (C6_email_format_error { adaForm with email := js "   " }).2 (by decide)⟩

/-- C7 as stated fails at `12345<TAB>67890`: the value is not blank and is not
made of digits, spaces, `-`, `(` and `)` only, yet no error is stored for it. -/
theorem C7_counterexample :
    trim (js "12345\t67890") ≠ [] ∧
    ¬ PhoneShape specPhoneChar (js "12345\t67890") ∧
    (validateForm { adaForm with phoneNumber := js "12345\t67890" }).1.phoneNumber = [] := by
  refine ⟨by decide, ?_, by decide⟩
  rintro ⟨t, ht, -, hall⟩
  have hmem : (0x09 : Nat) ∈ t := by
    rcases ht with ht | ht
    · rw [← ht]; decide
    · have hhead : (js "12345\t67890").head? = some 0x2B := by rw [ht]; rfl
      exact absurd hhead (by decide)
  exact absurd (hall _ hmem) (by decide)

/-- C7 as amended, at the three phone numbers of the specification: the empty
string passes, `123` gets the format error, `+1 (555) 123-4567` passes. -/
theorem C7_phone_rule_witness :
    (validateForm { adaForm with phoneNumber := js "" }).1.phoneNumber = [] ∧
    (validateForm { adaForm with phoneNumber := js "123" }).1.phoneNumber =
      js "Please enter a valid phone number" ∧
    (validateForm { adaForm with phoneNumber := js "+1 (555) 123-4567" }).1.phoneNumber = [] :=
  ⟨(C7_phone_rule { adaForm with phoneNumber := js "" }).1 (by decide),
    ((C7_phone_rule { adaForm with phoneNumber := js "123" }).2 (by decide)).2
      (fun h => absurd ((phoneRegex_test_iff _).2 h) (by decide)),
    ((C7_phone_rule { adaForm with phoneNumber := js "+1 (555) 123-4567" }).2 (by decide)).1.2
      ((phoneRegex_test_iff _).1 (by decide))⟩

/-- C8 at a full name of one letter between spaces, a subject of four letters
and a message of white space only. -/
theorem C8_length_rules_witness :
    (validateForm shortForm).1.firstName = js "Full name must be at least 2 characters" ∧
    (validateForm shortForm).1.subject = js "Subject must be at least 5 characters" ∧
    (validateForm shortForm).1.message = js "Message is required" ∧
    (validateForm adaForm).1.firstName = [] :=
  ⟨(C8_length_rules shortForm).1.2.1 (by decide),
    (C8_length_rules shortForm).2.1.2.1 (by decide),
    (C8_length_rules shortForm).2.2.1.1 (by decide),
    (C8_length_rules adaForm).1.2.2 (by decide)⟩

/-! ## The state objects -/

theorem Fields.get_set_self (o : Fields) (name : FieldName) (value : JSString) :
    (o.set name value).get name = value := by
  cases name <;> rfl

theorem Fields.get_set_of_ne (o : Fields) {name g : FieldName} (value : JSString)
    (h : g ≠ name) : (o.set name value).get g = o.get g := by
  cases name <;> cases g <;> first | rfl | exact absurd rfl h

theorem Fields.ext_get {a b : Fields} (h : ∀ f, a.get f = b.get f) : a = b := by
  cases a; cases b
  have h1 := h .firstName
  have h2 := h .email
  have h3 := h .phoneNumber
  have h4 := h .subject
  have h5 := h .message
  simp only [Fields.get] at h1 h2 h3 h4 h5
  simp [h1, h2, h3, h4, h5]

theorem Fields.blank_get (f : FieldName) : Fields.blank.get f = [] := by
  cases f <;> rfl

/-- Each entry of the object built by `validateForm` depends on the value of its
own field only. -/
theorem validateForm_get (fd : Fields) (f : FieldName) :
    (validateForm fd).1.get f = errorFor f (fd.get f) := by
  cases f <;> rfl

/-! ## The handlers -/

theorem handleSubmit_of_valid (m : Model) (h : (validateForm m.formData).2 = true) :
    handleSubmit m =
      { m with
        errors := (validateForm m.formData).1
        sent := m.sent ++ [sendCall m.formData]
        pending := m.pending + 1 } := by
  simp [handleSubmit, h]

theorem handleSubmit_of_invalid (m : Model) (h : (validateForm m.formData).2 = false) :
    handleSubmit m =
      { m with
        errors := (validateForm m.formData).1
        toasts := m.toasts ++ [Toast.error (js "Please fill all the fields in the form")] } := by
  simp [handleSubmit, h]

theorem handleSubmit_formData (m : Model) : (handleSubmit m).formData = m.formData := by
  unfold handleSubmit
  split <;> rfl

theorem handleSubmit_errors (m : Model) :
    (handleSubmit m).errors = (validateForm m.formData).1 := by
  unfold handleSubmit
  split <;> rfl

theorem step_fulfilled (m : Model) (h : 0 < m.pending) :
    step m .fulfilled = some (onFulfilled { m with pending := m.pending - 1 }) := by
  simp [step, h]

theorem step_rejected (m : Model) (h : 0 < m.pending) :
    step m .rejected = some (onRejected { m with pending := m.pending - 1 }) := by
  simp [step, h]

theorem handleChange_errors_self (m : Model) (name : FieldName) (value : JSString) :
    (handleChange m name value).errors.get name = [] := by
  unfold handleChange
  cases h : truthy (m.errors.get name) with
  | true => simp only [if_true]; exact Fields.get_set_self _ _ _
  | false =>
    simp only [Bool.false_eq_true, if_false]
    cases he : m.errors.get name with
    | nil => rfl
    | cons c t => rw [he] at h; cases h

theorem handleChange_errors_of_ne (m : Model) {name g : FieldName} (value : JSString)
    (hg : g ≠ name) : (handleChange m name value).errors.get g = m.errors.get g := by
  unfold handleChange
  cases h : truthy (m.errors.get name) with
  | true => simp only [if_true]; exact Fields.get_set_of_ne _ _ hg
  | false => simp only [Bool.false_eq_true, if_false]

/-! ## The stored errors follow the validator -/

theorem errorsAgree_initial : ErrorsAgree Model.initial := fun f =>
  Or.inl (Fields.blank_get f)

theorem errorsAgree_handleChange (m : Model) (name : FieldName) (value : JSString)
    (h : ErrorsAgree m) : ErrorsAgree (handleChange m name value) := by
  intro f
  by_cases hf : f = name
  · subst hf
    exact Or.inl (handleChange_errors_self m f value)
  · rw [handleChange_errors_of_ne m value hf, validateForm_get]
    have e : (handleChange m name value).formData.get f = m.formData.get f :=
      Fields.get_set_of_ne _ _ hf
    rw [e, ← validateForm_get]
    exact h f

theorem errorsAgree_handleSubmit (m : Model) : ErrorsAgree (handleSubmit m) := by
  intro f
  rw [handleSubmit_errors, handleSubmit_formData]
  exact Or.inr rfl

theorem errorsAgree_onFulfilled (m : Model) : ErrorsAgree (onFulfilled m) := fun f =>
  Or.inl (Fields.blank_get f)

theorem errorsAgree_step {m m1 : Model} {e : Event} (h : ErrorsAgree m)
    (hs : step m e = some m1) : ErrorsAgree m1 := by
  cases e with
  | change name value =>
    simp only [step, Option.some.injEq] at hs
    subst hs
    exact errorsAgree_handleChange m name value h
  | submit =>
    simp only [step, Option.some.injEq] at hs
    subst hs
    exact errorsAgree_handleSubmit m
  | fulfilled =>
    by_cases hp : 0 < m.pending
    · rw [step_fulfilled m hp, Option.some.injEq] at hs
      subst hs
      exact errorsAgree_onFulfilled _
    · simp [step, hp] at hs
  | rejected =>
    by_cases hp : 0 < m.pending
    · rw [step_rejected m hp, Option.some.injEq] at hs
      subst hs
      exact h
    · simp [step, hp] at hs

theorem errorsAgree_run {m m1 : Model} (es : List Event) (h : ErrorsAgree m)
    (hr : run m es = some m1) : ErrorsAgree m1 := by
  induction es generalizing m with
  | nil =>
    simp only [run, Option.some.injEq] at hr
    subst hr
    exact h
  | cons e es ih =>
    simp only [run] at hr
    cases hs : step m e with
    | none => rw [hs] at hr; cases hr
    | some m2 =>
      rw [hs] at hr
      exact ih (errorsAgree_step h hs) hr

/-! ## Editing and submitting (claims C1 to C3, C9, C10) -/

/-- C1: when `validateForm` passes, `handleSubmit` calls `emailjs.send` exactly
once, with the fixed service id, template id and key and with the payload built
from the untrimmed form values, emitting no notification and leaving the form
values as they are; when that send succeeds, every form value and every form
error is the empty string and exactly one notification, a success, has been
emitted since the submit, with no further send. Whenever a pending send
succeeds, both objects are all-empty and one success notification is added. -/
theorem C1_submit_valid (m : Model) (h : (validateForm m.formData).2 = true) :
    (handleSubmit m).sent = m.sent ++
      [{ serviceID := js "service_l8aprwm"
         templateID := js "template_gkestay"
         templateParams :=
          { name := m.formData.firstName
            email := m.formData.email
            phone := m.formData.phoneNumber
            subject := m.formData.subject
            message := m.formData.message }
         userID := js "k-O_EPnX8LFiGTSRa" }] ∧
    (handleSubmit m).toasts = m.toasts ∧
    (handleSubmit m).formData = m.formData ∧
    (handleSubmit m).pending = m.pending + 1 ∧
    (∃ m1, step (handleSubmit m) .fulfilled = some m1 ∧
      (∀ f, m1.formData.get f = [] ∧ m1.errors.get f = []) ∧
      m1.toasts = m.toasts ++ [Toast.success (js "Message sent successfully!")] ∧
      m1.sent = (handleSubmit m).sent ∧ m1.pending = m.pending) ∧
    ∀ m2 : Model, 0 < m2.pending → ∃ m3, step m2 .fulfilled = some m3 ∧
      (∀ f, m3.formData.get f = [] ∧ m3.errors.get f = []) ∧
      m3.toasts = m2.toasts ++ [Toast.success (js "Message sent successfully!")] ∧
      m3.sent = m2.sent := by
  have hany : ∀ m2 : Model, 0 < m2.pending → ∃ m3, step m2 .fulfilled = some m3 ∧
      (∀ f, m3.formData.get f = [] ∧ m3.errors.get f = []) ∧
      m3.toasts = m2.toasts ++ [Toast.success (js "Message sent successfully!")] ∧
      m3.sent = m2.sent := fun m2 hp =>
    ⟨_, step_fulfilled m2 hp, fun f => ⟨Fields.blank_get f, Fields.blank_get f⟩, rfl, rfl⟩
  rw [handleSubmit_of_valid m h]
  refine ⟨rfl, rfl, rfl, rfl, ⟨_, step_fulfilled _ (Nat.succ_pos _), ?_, rfl, rfl, rfl⟩, hany⟩
  exact fun f => ⟨Fields.blank_get f, Fields.blank_get f⟩

/-- C1 at the form of the end-to-end example. -/
theorem C1_submit_valid_witness :
    (validateForm adaModel.formData).2 = true ∧
    (handleSubmit adaModel).sent =
      [{ serviceID := js "service_l8aprwm"
         templateID := js "template_gkestay"
         templateParams :=
          { name := js "Ada Lovelace"
            email := js "ada@x.com"
            phone := js ""
            subject := js "Project Inquiry"
            message := js "Let's build something." }
         userID := js "k-O_EPnX8LFiGTSRa" }] ∧
    ∃ m1, step (handleSubmit adaModel) .fulfilled = some m1 ∧
      (∀ f, m1.formData.get f = [] ∧ m1.errors.get f = []) ∧
      m1.toasts = [Toast.success (js "Message sent successfully!")] :=
  have h := C1_submit_valid adaModel (by decide)
  ⟨by decide, h.1, h.2.2.2.2.1.imp fun _ hm => ⟨hm.1, hm.2.1, hm.2.2.1⟩⟩

/-- C2: when `validateForm` fails, `handleSubmit` does not call `emailjs.send`,
emits exactly one notification, an error, leaves every form value unchanged and
leaves the form errors equal to what the validator computed, at least one entry
of which is non-empty; a form whose trimmed message has fewer than 10 code
units is such a form, and its message entry is then non-empty. -/
theorem C2_submit_invalid (m : Model) :
    ((validateForm m.formData).2 = false →
      (handleSubmit m).sent = m.sent ∧
      (handleSubmit m).pending = m.pending ∧
      (handleSubmit m).toasts =
        m.toasts ++ [Toast.error (js "Please fill all the fields in the form")] ∧
      (handleSubmit m).formData = m.formData ∧
      (handleSubmit m).errors = (validateForm m.formData).1 ∧
      ∃ f, (handleSubmit m).errors.get f ≠ []) ∧
    ((trim m.formData.message).length < 10 →
      (validateForm m.formData).2 = false ∧ (handleSubmit m).errors.message ≠ []) := by
  constructor
  · intro h
    have hex := (validateForm_false_iff m.formData).1 h
    rw [handleSubmit_of_invalid m h]
    exact ⟨rfl, rfl, rfl, rfl, rfl, hex⟩
  · intro hlen
    have hmsg : (validateForm m.formData).1.message ≠ [] := by
      show messageError m.formData.message ≠ []
      have hr := messageError_rule m.formData.message
      cases ht : trim m.formData.message with
      | nil => rw [hr.1 ht]; decide
      | cons c t =>
        have h1 : 1 ≤ (trim m.formData.message).length := by rw [ht]; simp
        rw [hr.2.1 ⟨h1, hlen⟩]; decide
    refine ⟨(validateForm_false_iff m.formData).2 ⟨.message, hmsg⟩, ?_⟩
    rw [handleSubmit_errors]
    exact hmsg

/-- C2 at the example form with the message `short`. -/
theorem C2_submit_invalid_witness :
    (trim shortModel.formData.message).length < 10 ∧
    (validateForm shortModel.formData).2 = false ∧
    (handleSubmit shortModel).sent = [] ∧
    (handleSubmit shortModel).toasts =
      [Toast.error (js "Please fill all the fields in the form")] ∧
    (handleSubmit shortModel).formData = shortModel.formData ∧
    (handleSubmit shortModel).errors.message ≠ [] :=
  have h2 := (C2_submit_invalid shortModel).2 (by decide)
  have h1 := (C2_submit_invalid shortModel).1 h2.1
  ⟨by decide, h2.1, h1.1, h1.2.2.1, h1.2.2.2.1, h2.2⟩

/-- C3: in a state with a send pending, the failure of that send leaves the form
values and the form errors as they were, emits exactly one notification, an
error, and calls `emailjs.send` no further time. -/
theorem C3_send_failure (m : Model) (h : 0 < m.pending) :
    ∃ m1, step m .rejected = some m1 ∧
      m1.formData = m.formData ∧ m1.errors = m.errors ∧
      m1.toasts =
        m.toasts ++ [Toast.error (js "Failed to send message. Please try again later.")] ∧
      m1.sent = m.sent ∧ m1.pending = m.pending - 1 :=
  ⟨_, step_rejected m h, rfl, rfl, rfl, rfl, rfl⟩

/-- C3 at the state right after the example form has been submitted. -/
theorem C3_send_failure_witness :
    0 < (handleSubmit adaModel).pending ∧
    ∃ m1, step (handleSubmit adaModel) .rejected = some m1 ∧
      m1.formData = adaForm ∧ m1.errors = Fields.blank ∧
      m1.toasts = [Toast.error (js "Failed to send message. Please try again later.")] ∧
      m1.sent = [sendCall adaForm] :=
  ⟨by decide, (C3_send_failure (handleSubmit adaModel) (by decide)).imp fun _ hm =>
    ⟨hm.1, hm.2.1.trans (by decide), hm.2.2.1.trans (by decide), hm.2.2.2.1.trans (by decide),
      hm.2.2.2.2.1.trans (by decide)⟩⟩

/-- C9: `handleChange(name, value)` stores exactly `value` for the field `name`,
leaves the error of that field empty whether or not `value` is valid, and leaves
the value and the error of every other field unchanged. -/
theorem C9_handleChange (m : Model) (name : FieldName) (value : JSString) :
    (handleChange m name value).formData.get name = value ∧
    (handleChange m name value).errors.get name = [] ∧
    ∀ g, g ≠ name →
      (handleChange m name value).formData.get g = m.formData.get g ∧
      (handleChange m name value).errors.get g = m.errors.get g :=
  ⟨Fields.get_set_self _ _ _, handleChange_errors_self m name value, fun _ hg =>
    ⟨Fields.get_set_of_ne _ _ hg, handleChange_errors_of_ne m value hg⟩⟩

/-- C9 after a submit of the empty form: the subject error is set, typing `x`
as subject clears it although `x` is too short, the message error stays, and
the next submit stores the too-short error. -/
theorem C9_handleChange_witness :
    (handleSubmit Model.initial).errors.get .subject = js "Subject is required" ∧
    (handleChange (handleSubmit Model.initial) .subject (js "x")).formData.get .subject = js "x" ∧
    (handleChange (handleSubmit Model.initial) .subject (js "x")).errors.get .subject = [] ∧
    (handleChange (handleSubmit Model.initial) .subject (js "x")).errors.get .message =
      js "Message is required" ∧
    subjectError (js "x") = js "Subject must be at least 5 characters" ∧
    (handleSubmit (handleChange (handleSubmit Model.initial) .subject (js "x"))).errors.get
      .subject = js "Subject must be at least 5 characters" :=
  have h := C9_handleChange (handleSubmit Model.initial) .subject (js "x")
  ⟨by decide, h.1, h.2.1, ((h.2.2 .message (by decide)).2).trans (by decide), by decide,
    by decide⟩

/-- C10: in every state reachable from the mounted component by edits, submits
and settlements of pending sends, each stored error is empty or is what
`validateForm` computes for the current value of its field; so a field whose
value is currently valid shows no error, and when `validateForm` passes inside
`handleSubmit` the errors were all empty before the call, the submit leaves
them so, and a failure of the send then leaves them as before the submit. -/
theorem C10_errors_agree (m : Model) (h : Reachable m) :
    (∀ f, m.errors.get f = [] ∨ m.errors.get f = (validateForm m.formData).1.get f) ∧
    (∀ f, (validateForm m.formData).1.get f = [] → m.errors.get f = []) ∧
    ((validateForm m.formData).2 = true →
      (∀ f, m.errors.get f = []) ∧
      (handleSubmit m).errors = m.errors ∧
      ∃ m1, step (handleSubmit m) .rejected = some m1 ∧ m1.errors = m.errors) := by
  obtain ⟨es, hes⟩ := h
  have hag : ErrorsAgree m := errorsAgree_run es errorsAgree_initial hes
  have hvalid : ∀ f, (validateForm m.formData).1.get f = [] → m.errors.get f = [] := by
    intro f hf
    rcases hag f with h0 | h0
    · exact h0
    · rw [h0, hf]
  refine ⟨hag, hvalid, fun hv => ?_⟩
  have hall := (validateForm_true_iff m.formData).1 hv
  have hempty : ∀ f, m.errors.get f = [] := fun f => hvalid f (hall f)
  have hsame : (handleSubmit m).errors = m.errors := by
    rw [handleSubmit_errors]
    exact Fields.ext_get fun f => by rw [hall f, hempty f]
  have hp : 0 < (handleSubmit m).pending := by
    rw [handleSubmit_of_valid m hv]
    exact Nat.succ_pos _
  exact ⟨hempty, hsame, _, step_rejected _ hp, hsame⟩

/-- C10 at the end of the sample session, where the example form has been
submitted and the send has failed. -/
theorem C10_errors_agree_witness :
    Reachable sampleState ∧
    (validateForm sampleState.formData).2 = true ∧
    (∀ f, sampleState.errors.get f = []) ∧
    (handleSubmit sampleState).errors = sampleState.errors :=
  have hr : Reachable sampleState := ⟨sampleTrace, by decide⟩
  have hv : (validateForm sampleState.formData).2 = true := by decide
  ⟨hr, hv, ((C10_errors_agree sampleState hr).2.2 hv).1,
    ((C10_errors_agree sampleState hr).2.2 hv).2.1⟩

end ContactSection
